import Mathlib

/-!
Verification of the wikiserieswillemcli series-to-filesystem materialization
engine (`wikiserieswillemcli/wikiserieswillemcli.py`).

The module resolves a series name to a season/episode structure and
materializes it as a directory tree.  We embed the filesystem as an
association list from paths (lists of components) to entries (directories or
text files) and translate each function of the module into a state-passing
function returning the new filesystem together with an optional error
(mirroring a raised OSError subclass).  The external resolver
(`wikiserieswillemlib.search_series`) is a parameter of `main`; its `none`
result models the `IndexError` the module translates into
`SeriesNotFoundError`.
-/

set_option maxHeartbeats 1000000

namespace Wikiseries

/-- A filesystem entry: a directory or a text file with its content. -/
inductive FSEntry where
  | dir : FSEntry
  | file : String → FSEntry
deriving DecidableEq

/-- A filesystem path, as its list of components (`pathlib.Path` parts). -/
abbrev Path := List String

/-- The filesystem state: a finite association of paths to entries. -/
abbrev FS := List (Path × FSEntry)

/-- Look up the entry stored at a path. -/
def FS.lookup : FS → Path → Option FSEntry
  | [], _ => none
  | (q, e) :: rest, p => if q = p then some e else FS.lookup rest p

/-- `Path.exists()`: does anything (file or directory) live at this path? -/
def FS.pathExists (fs : FS) (p : Path) : Bool :=
  (FS.lookup fs p).isSome

/-- Store an entry at a path, replacing the previous entry if there was one. -/
def FS.set : FS → Path → FSEntry → FS
  | [], p, e => [(p, e)]
  | (q, e') :: rest, p, e =>
    if q = p then (p, e) :: rest else (q, e') :: FS.set rest p e

/-- The OSError subclasses relevant to the module. -/
inductive FSError where
  | fileExists     -- FileExistsError
  | isADirectory   -- IsADirectoryError
  | notADirectory  -- NotADirectoryError
deriving DecidableEq

/-- Decimal digit characters of `n`, most significant first; `fuel` bounds
    the recursion depth (`n ≤ fuel` suffices for a correct rendering). -/
def decCharsGo : Nat → Nat → List Char
  | _, 0 => []
  | 0, _ + 1 => []
  | fuel + 1, n + 1 =>
    decCharsGo fuel ((n + 1) / 10) ++ [Nat.digitChar ((n + 1) % 10)]

/-- Decimal digit characters of `n`, most significant first (empty for 0). -/
def decChars (n : Nat) : List Char := decCharsGo n n

/-- Decimal rendering of `n` as a list of characters. -/
def decRepr (n : Nat) : List Char := if n = 0 then ['0'] else decChars n

/-- Python `f"{n:02d}"`: decimal rendering of `n`, zero-padded to width 2. -/
def pad2 (n : Nat) : String :=
  String.mk (if n < 10 then '0' :: decRepr n else decRepr n)

/-- `is_valid_name` from the module: rejects only the empty string. -/
def is_valid_name (name : String) : Bool :=
  if name.length = 0 then false else true

/-- Model of the Python builtin `open(path, mode).write(content)` as used by
    `write_contents`: mode `"x"` creates exclusively and raises
    `FileExistsError` when the path already exists; any other mode (the
    module only passes `"w"`) truncates/creates, raising `IsADirectoryError`
    on a directory.  The fixed text `ENCODING` constant is unobservable at
    this level and is not modelled. -/
def openWrite (fs : FS) (path : Path) (mode : String) (content : String) :
    FS × Option FSError :=
  if mode = "x" then
    if FS.pathExists fs path then (fs, some FSError.fileExists)
    else (FS.set fs path (FSEntry.file content), none)
  else
    match FS.lookup fs path with
    | some FSEntry.dir => (fs, some FSError.isADirectory)
    | _ => (FS.set fs path (FSEntry.file content), none)

/-- `write_contents`: write `content` to `path` in mode `filemode`,
    swallowing `FileExistsError` (the conflict, together with `force`, is
    only logged at debug level).  Other errors propagate. -/
def write_contents (fs : FS) (path : Path) (content : String)
    (filemode : String) (force : Bool) : FS × Option FSError :=
  match openWrite fs path filemode content with
  | (fs', none) => (fs', none)
  | (fs', some FSError.fileExists) => (fs', none)
  | (fs', some e) => (fs', some e)

/-- All nonempty prefixes of a path, shortest first (the last one is the
    path itself). -/
def nonemptyPrefixes : Path → List Path
  | [] => []
  | a :: rest => [a] :: List.map (fun q => a :: q) (nonemptyPrefixes rest)

/-- The nonempty proper ancestors of a path, shortest first. -/
def parentPaths (p : Path) : List Path :=
  List.dropLast (nonemptyPrefixes p)

/-- Create every missing ancestor directory in order, failing with
    `NotADirectoryError` on an ancestor that exists as a file. -/
def ensureDirs : FS → List Path → FS × Option FSError
  | fs, [] => (fs, none)
  | fs, q :: rest =>
    match FS.lookup fs q with
    | none => ensureDirs (FS.set fs q FSEntry.dir) rest
    | some FSEntry.dir => ensureDirs fs rest
    | some (FSEntry.file _) => (fs, some FSError.notADirectory)

/-- Model of `Path.mkdir(parents=True)`: ancestors first, then the path
    itself, which must not already exist. -/
def mkdir_parents (fs : FS) (p : Path) : FS × Option FSError :=
  match ensureDirs fs (parentPaths p) with
  | (fs', none) =>
    match FS.lookup fs' p with
    | some _ => (fs', some FSError.fileExists)
    | none => (FS.set fs' p FSEntry.dir, none)
  | (fs', some e) => (fs', some e)

/-- `create_folder`: creates a folder idempotently — a silent (debug-logged)
    no-op when the path already exists, as a file or as a directory. -/
def create_folder (fs : FS) (path : Path) : FS × Option FSError :=
  if FS.pathExists fs path then (fs, none)
  else mkdir_parents fs path

/-- The inner `for episode_number, episode_title in enumerate(episodes)` loop
    of `output_to_folders`; `episode_number` is the 0-based index carried by
    `enumerate`. -/
def write_episodes (season_folder : Path) (force : Bool) :
    FS → List String → Nat → FS × Option FSError
  | fs, [], _ => (fs, none)
  | fs, _episode_title :: rest, episode_number =>
    let file_path := season_folder ++ ["Episode_" ++ pad2 (episode_number + 1)]
    let filemode := if force then "w" else "x"
    let file_content := "Episode: " ++ pad2 episode_number
    match write_contents fs file_path file_content filemode force with
    | (fs', some e) => (fs', some e)
    | (fs', none) => write_episodes season_folder force fs' rest (episode_number + 1)

/-- The outer `for season, episodes in series.items()` loop of
    `output_to_folders` (a Python dict iterates in insertion order, so the
    series structure is a list of season/episodes pairs). -/
def write_seasons (series_folder : Path) (force : Bool) :
    FS → List (String × List String) → FS × Option FSError
  | fs, [] => (fs, none)
  | fs, (season, episodes) :: rest =>
    let season_folder := series_folder ++ [season]
    match create_folder fs season_folder with
    | (fs', some e) => (fs', some e)
    | (fs', none) =>
      match write_episodes season_folder force fs' episodes 0 with
      | (fs'', some e) => (fs'', some e)
      | (fs'', none) => write_seasons series_folder force fs'' rest

/-- `output_to_folders`: materialize a resolved series structure under
    `output_path` (defaulting to the current working directory `cwd`). -/
def output_to_folders (fs : FS) (cwd : Path) (name : String)
    (series : List (String × List String)) (output_path : Option Path)
    (force : Bool) : FS × Option FSError :=
  let base := Option.getD output_path cwd
  let series_folder := base ++ [name]
  match create_folder fs series_folder with
  | (fs', some e) => (fs', some e)
  | (fs', none) =>
    let markerfile := series_folder ++ [".wikiseries"]
    match write_contents fs' markerfile "true" "w" false with
    | (fs'', some e) => (fs'', some e)
    | (fs'', none) => write_seasons series_folder force fs'' series

/-- The parsed command-line arguments consumed by `main` (logging flags are
    out of scope). -/
structure Args where
  name : String
  output : Option Path
  force : Bool
  action : String

/-- The exceptions `main` can surface, from the module's exception
    taxonomy (`SeriesFolderAlreadyExistsError` is declared upstream but
    never raised). -/
inductive CliError where
  | invalidName            -- InvalidNameError
  | seriesNotFound         -- SeriesNotFoundError
  | fsFailure (e : FSError)  -- an uncaught OSError from materialization
deriving DecidableEq

/-- `main`: the run after argument parsing and logging setup.  `resolver`
    stands for the external `search_series`; `none` models the `IndexError`
    it raises when the name cannot be resolved.  Note that the
    `if args.action == "remove": pass` statement of the source has no effect
    and execution falls through to the add path. -/
def main (resolver : String → Option (List (String × List String)))
    (fs : FS) (cwd : Path) (args : Args) : FS × Option CliError :=
  let fs := if args.action = "remove" then fs else fs
  if is_valid_name args.name = false then (fs, some CliError.invalidName)
  else
    match resolver args.name with
    | none => (fs, some CliError.seriesNotFound)
    | some series =>
      match output_to_folders fs cwd args.name series args.output args.force with
      | (fs', none) => (fs', none)
      | (fs', some e) => (fs', some (CliError.fsFailure e))

/-! ### Basic lemmas about the filesystem model -/

theorem lookup_set_self (fs : FS) (p : Path) (e : FSEntry) :
    FS.lookup (FS.set fs p e) p = some e := by
  induction fs with
  | nil => simp [FS.set, FS.lookup]
  | cons hd tl ih =>
    obtain ⟨q, e'⟩ := hd
    by_cases h : q = p
    · simp [FS.set, h, FS.lookup]
    · simp [FS.set, h, FS.lookup, ih]

theorem lookup_set_ne (fs : FS) (p q : Path) (e : FSEntry) (h : q ≠ p) :
    FS.lookup (FS.set fs p e) q = FS.lookup fs q := by
  induction fs with
  | nil => simp [FS.set, FS.lookup, Ne.symm h]
  | cons hd tl ih =>
    obtain ⟨q', e'⟩ := hd
    by_cases hq : q' = p
    · subst hq
      simp [FS.set, FS.lookup, Ne.symm h]
    · simp only [FS.set, if_neg hq, FS.lookup]
      by_cases hq2 : q' = q
      · simp [hq2]
      · simp [hq2, ih]

theorem set_self_of_lookup (fs : FS) (p : Path) (e : FSEntry)
    (h : FS.lookup fs p = some e) : FS.set fs p e = fs := by
  induction fs with
  | nil => simp [FS.lookup] at h
  | cons hd tl ih =>
    obtain ⟨q, e'⟩ := hd
    by_cases hq : q = p
    · subst hq
      have h' : e' = e := by simpa [FS.lookup] using h
      subst h'
      simp [FS.set]
    · simp only [FS.lookup, if_neg hq] at h
      simp [FS.set, hq, ih h]

/-- `FS.Sub fs g`: every entry of `fs` is present unchanged in `g`. -/
def FS.Sub (fs g : FS) : Prop :=
  ∀ q e, FS.lookup fs q = some e → FS.lookup g q = some e

theorem sub_refl (fs : FS) : FS.Sub fs fs := fun _ _ h => h

theorem sub_trans {a b c : FS} (h1 : FS.Sub a b) (h2 : FS.Sub b c) :
    FS.Sub a c := fun q e h => h2 q e (h1 q e h)

theorem sub_set_fresh {fs : FS} {p : Path} {e : FSEntry}
    (h : FS.lookup fs p = none) : FS.Sub fs (FS.set fs p e) := by
  intro q e' hq
  rcases eq_or_ne q p with rfl | hne
  · rw [h] at hq; cases hq
  · rw [lookup_set_ne _ _ _ _ hne]; exact hq

theorem pathExists_of_sub {fs g : FS} {p : Path} (hsub : FS.Sub fs g)
    (h : FS.pathExists fs p = true) : FS.pathExists g p = true := by
  unfold FS.pathExists at *
  obtain ⟨e, he⟩ := Option.isSome_iff_exists.mp h
  rw [hsub p e he]; rfl

theorem pathExists_set {fs : FS} {p q : Path} {e : FSEntry}
    (h : FS.pathExists fs q = true) :
    FS.pathExists (FS.set fs p e) q = true := by
  rcases eq_or_ne q p with rfl | hne
  · unfold FS.pathExists; rw [lookup_set_self]; rfl
  · unfold FS.pathExists at *; rw [lookup_set_ne _ _ _ _ hne]; exact h

theorem pathExists_of_lookup {fs : FS} {p : Path} {e : FSEntry}
    (h : FS.lookup fs p = some e) : FS.pathExists fs p = true := by
  unfold FS.pathExists; rw [h]; rfl

/-! ### The decimal renderer `pad2` is injective -/

/-- The numeric value of a list of decimal digit characters (leading zeros
    are immaterial). -/
def valDec (l : List Char) : Nat :=
  l.foldl (fun a c => 10 * a + (c.toNat - 48)) 0

theorem valDec_append_digit (l : List Char) (c : Char) :
    valDec (l ++ [c]) = 10 * valDec l + (c.toNat - 48) := by
  unfold valDec; rw [List.foldl_append]; rfl

theorem digit_toNat : ∀ d, d < 10 → (Nat.digitChar d).toNat - 48 = d := by decide

theorem valDec_decCharsGo : ∀ fuel n, n ≤ fuel → valDec (decCharsGo fuel n) = n := by
  intro fuel
  induction fuel with
  | zero =>
    intro n hn
    interval_cases n
    rfl
  | succ fuel ih =>
    intro n hn
    match n with
    | 0 => rfl
    | m + 1 =>
      simp only [decCharsGo]
      rw [valDec_append_digit]
      have hdiv : (m + 1) / 10 ≤ fuel := by
        have h1 : (m + 1) / 10 < m + 1 := Nat.div_lt_self (Nat.succ_pos m) (by decide)
        omega
      rw [ih _ hdiv, digit_toNat _ (Nat.mod_lt _ (by decide))]
      exact Nat.div_add_mod (m + 1) 10

theorem valDec_cons_zero (l : List Char) : valDec ('0' :: l) = valDec l := by
  have h : 10 * 0 + ('0'.toNat - 48) = 0 := by decide
  unfold valDec
  rw [List.foldl_cons, h]

theorem valDec_decRepr (n : Nat) : valDec (decRepr n) = n := by
  unfold decRepr
  by_cases h : n = 0
  · subst h; decide
  · rw [if_neg h]
    exact valDec_decCharsGo n n (Nat.le_refl n)

theorem valDec_pad2 (n : Nat) : valDec (pad2 n).data = n := by
  unfold pad2
  by_cases h : n < 10
  · rw [if_pos h]
    show valDec ('0' :: decRepr n) = n
    rw [valDec_cons_zero, valDec_decRepr]
  · rw [if_neg h]
    show valDec (decRepr n) = n
    exact valDec_decRepr n

theorem pad2_inj {a b : Nat} (h : (pad2 a).data = (pad2 b).data) : a = b := by
  have ha := valDec_pad2 a
  rw [h, valDec_pad2] at ha
  omega

theorem data_append (s t : String) : (s ++ t).data = s.data ++ t.data := by
  cases s; cases t; rfl

theorem epName_inj {a b : Nat}
    (h : "Episode_" ++ pad2 a = "Episode_" ++ pad2 b) : a = b := by
  have hd := congrArg String.data h
  rw [data_append, data_append] at hd
  exact pad2_inj (List.append_cancel_left hd)

theorem epPath_inj {sf : Path} {a b : Nat}
    (h : sf ++ ["Episode_" ++ pad2 a] = sf ++ ["Episode_" ++ pad2 b]) :
    a = b := by
  have h2 := List.append_cancel_left h
  have h3 : "Episode_" ++ pad2 a = "Episode_" ++ pad2 b := by
    injection h2
  exact epName_inj h3

theorem epPath_ne {sf : Path} {a b : Nat} (h : a ≠ b) :
    sf ++ ["Episode_" ++ pad2 a] ≠ sf ++ ["Episode_" ++ pad2 b] :=
  fun hc => h (epPath_inj hc)

/-! ### Case lemmas for the write and folder primitives -/

theorem lookup_none_of_not_exists {fs : FS} {p : Path}
    (h : FS.pathExists fs p = false) : FS.lookup fs p = none := by
  unfold FS.pathExists at h
  cases hl : FS.lookup fs p
  · rfl
  · rw [hl] at h; cases h

theorem openWrite_state {fs : FS} {p : Path} {m c : String} {fs' : FS}
    {r : Option FSError} (h : openWrite fs p m c = (fs', r)) :
    (fs' = fs ∧ r ≠ none) ∨ (fs' = FS.set fs p (FSEntry.file c) ∧ r = none) := by
  unfold openWrite at h
  split at h
  · split at h
    · injection h with h1 h2
      exact Or.inl ⟨h1.symm, fun hc => by rw [← h2] at hc; cases hc⟩
    · injection h with h1 h2
      exact Or.inr ⟨h1.symm, h2.symm⟩
  · split at h
    · injection h with h1 h2
      exact Or.inl ⟨h1.symm, fun hc => by rw [← h2] at hc; cases hc⟩
    · injection h with h1 h2
      exact Or.inr ⟨h1.symm, h2.symm⟩

theorem write_contents_state {fs : FS} {p : Path} {c m : String} {f : Bool}
    {fs' : FS} {r : Option FSError}
    (h : write_contents fs p c m f = (fs', r)) :
    fs' = fs ∨ fs' = FS.set fs p (FSEntry.file c) := by
  unfold write_contents at h
  split at h
  · next fs'' hw =>
    injection h with h1 h2
    subst h1
    rcases openWrite_state hw with ⟨he, _⟩ | ⟨he, _⟩
    · exact Or.inl he
    · exact Or.inr he
  · next fs'' hw =>
    injection h with h1 h2
    subst h1
    rcases openWrite_state hw with ⟨he, _⟩ | ⟨he, _⟩
    · exact Or.inl he
    · exact Or.inr he
  · next fs'' e hw =>
    injection h with h1 h2
    subst h1
    rcases openWrite_state hw with ⟨he, _⟩ | ⟨he, _⟩
    · exact Or.inl he
    · exact Or.inr he

theorem write_contents_error {fs : FS} {p : Path} {c m : String} {f : Bool}
    {fs' : FS} {e : FSError}
    (h : write_contents fs p c m f = (fs', some e)) : fs' = fs := by
  unfold write_contents at h
  split at h
  · injection h with h1 h2; cases h2
  · injection h with h1 h2; cases h2
  · next fs'' e' hw =>
    injection h with h1 h2
    subst h1
    rcases openWrite_state hw with ⟨he, _⟩ | ⟨_, hr⟩
    · exact he
    · cases hr

theorem write_x_exists {fs : FS} {p : Path} {c : String} {f : Bool}
    (h : FS.pathExists fs p = true) :
    write_contents fs p c "x" f = (fs, none) := by
  unfold write_contents openWrite
  rw [if_pos rfl, if_pos h]

theorem write_x_fresh {fs : FS} {p : Path} {c : String} {f : Bool}
    (h : FS.pathExists fs p = false) :
    write_contents fs p c "x" f = (FS.set fs p (FSEntry.file c), none) := by
  unfold write_contents openWrite
  rw [if_pos rfl, if_neg (by simp [h])]

theorem write_x_cases (fs : FS) (p : Path) (c : String) (f : Bool) :
    (FS.pathExists fs p = true ∧ write_contents fs p c "x" f = (fs, none)) ∨
    (FS.pathExists fs p = false ∧
      write_contents fs p c "x" f = (FS.set fs p (FSEntry.file c), none)) := by
  cases he : FS.pathExists fs p
  · exact Or.inr ⟨rfl, write_x_fresh he⟩
  · exact Or.inl ⟨rfl, write_x_exists he⟩

theorem write_x_ok {fs : FS} {p : Path} {c : String} {f : Bool} {fs' : FS}
    {r : Option FSError} (h : write_contents fs p c "x" f = (fs', r)) :
    r = none ∧ FS.pathExists fs' p = true := by
  rcases write_x_cases fs p c f with ⟨he, hw⟩ | ⟨he, hw⟩
  · rw [hw] at h
    injection h with h1 h2
    subst h1
    exact ⟨h2.symm, he⟩
  · rw [hw] at h
    injection h with h1 h2
    subst h1
    refine ⟨h2.symm, ?_⟩
    unfold FS.pathExists
    rw [lookup_set_self]
    rfl

theorem write_x_sub {fs : FS} {p : Path} {c : String} {f : Bool} {fs' : FS}
    {r : Option FSError} (h : write_contents fs p c "x" f = (fs', r)) :
    FS.Sub fs fs' := by
  rcases write_x_cases fs p c f with ⟨he, hw⟩ | ⟨he, hw⟩
  · rw [hw] at h
    injection h with h1 h2
    subst h1
    exact sub_refl _
  · rw [hw] at h
    injection h with h1 h2
    subst h1
    exact sub_set_fresh (lookup_none_of_not_exists he)

theorem write_w_of_file {fs : FS} {p : Path} {c₀ c : String} {f : Bool}
    (h : FS.lookup fs p = some (FSEntry.file c₀)) :
    write_contents fs p c "w" f = (FS.set fs p (FSEntry.file c), none) := by
  unfold write_contents openWrite
  rw [if_neg (by decide), h]

theorem write_w_of_none {fs : FS} {p : Path} {c : String} {f : Bool}
    (h : FS.lookup fs p = none) :
    write_contents fs p c "w" f = (FS.set fs p (FSEntry.file c), none) := by
  unfold write_contents openWrite
  rw [if_neg (by decide), h]

theorem write_w_ok {fs : FS} {p : Path} {c : String} {f : Bool} {fs' : FS}
    (h : write_contents fs p c "w" f = (fs', none)) :
    fs' = FS.set fs p (FSEntry.file c) := by
  unfold write_contents openWrite at h
  rw [if_neg (by decide)] at h
  cases he : FS.lookup fs p with
  | none =>
    rw [he] at h
    injection h with h1 h2
    exact h1.symm
  | some e =>
    cases e with
    | dir =>
      rw [he] at h
      injection h with h1 h2
      cases h2
    | file c₀ =>
      rw [he] at h
      injection h with h1 h2
      exact h1.symm

theorem create_folder_of_exists {fs : FS} {p : Path}
    (h : FS.pathExists fs p = true) : create_folder fs p = (fs, none) := by
  unfold create_folder
  rw [if_pos h]

theorem ensureDirs_sub : ∀ (l : List Path) (fs fs' : FS) (r : Option FSError),
    ensureDirs fs l = (fs', r) → FS.Sub fs fs' := by
  intro l
  induction l with
  | nil =>
    intro fs fs' r h
    unfold ensureDirs at h
    injection h with h1 h2
    subst h1
    exact sub_refl _
  | cons q rest ih =>
    intro fs fs' r h
    unfold ensureDirs at h
    split at h
    · next he => exact sub_trans (sub_set_fresh he) (ih _ _ _ h)
    · next he => exact ih _ _ _ h
    · next s he =>
      injection h with h1 h2
      subst h1
      exact sub_refl _

theorem mkdir_parents_sub {fs : FS} {p : Path} {fs' : FS} {r : Option FSError}
    (h : mkdir_parents fs p = (fs', r)) : FS.Sub fs fs' := by
  unfold mkdir_parents at h
  split at h
  · next fs₂ hen =>
    have hsub := ensureDirs_sub _ _ _ _ hen
    split at h
    · next he =>
      injection h with h1 h2
      subst h1
      exact hsub
    · next he =>
      injection h with h1 h2
      subst h1
      exact sub_trans hsub (sub_set_fresh he)
  · next fs₂ e hen =>
    injection h with h1 h2
    subst h1
    exact ensureDirs_sub _ _ _ _ hen

theorem create_folder_sub {fs : FS} {p : Path} {fs' : FS} {r : Option FSError}
    (h : create_folder fs p = (fs', r)) : FS.Sub fs fs' := by
  unfold create_folder at h
  split at h
  · injection h with h1 h2
    subst h1
    exact sub_refl _
  · exact mkdir_parents_sub h

theorem create_folder_exists_after {fs : FS} {p : Path} {fs' : FS}
    (h : create_folder fs p = (fs', none)) : FS.pathExists fs' p = true := by
  unfold create_folder at h
  split at h
  · next he =>
    injection h with h1 h2
    subst h1
    exact he
  · next he =>
    unfold mkdir_parents at h
    split at h
    · next fs₂ hen =>
      split at h
      · next he2 =>
        injection h with h1 h2
        cases h2
      · next he2 =>
        injection h with h1 h2
        subst h1
        unfold FS.pathExists
        rw [lookup_set_self]
        rfl
    · next fs₂ e hen =>
      injection h with h1 h2
      cases h2

/-! ### Lemmas about the episode and season loops -/

theorem write_episodes_lookup_other :
    ∀ (sf : Path) (force : Bool) (eps : List String) (fs fs₁ : FS)
      (r : Option FSError) (idx : Nat) (q : Path),
      write_episodes sf force fs eps idx = (fs₁, r) →
      (∀ j, j < eps.length → q ≠ sf ++ ["Episode_" ++ pad2 (idx + j + 1)]) →
      FS.lookup fs₁ q = FS.lookup fs q := by
  intro sf force eps
  induction eps with
  | nil =>
    intro fs fs₁ r idx q h hq
    unfold write_episodes at h
    injection h with h1 h2
    subst h1
    rfl
  | cons t rest ih =>
    intro fs fs₁ r idx q h hq
    have hq0 : q ≠ sf ++ ["Episode_" ++ pad2 (idx + 1)] := by
      have h0 := hq 0 (by simp)
      simpa using h0
    simp only [write_episodes] at h
    split at h
    · next fs' e hw =>
      injection h with h1 h2
      subst h1
      rw [write_contents_error hw]
    · next fs' hw =>
      have hstep : FS.lookup fs' q = FS.lookup fs q := by
        rcases write_contents_state hw with rfl | rfl
        · rfl
        · exact lookup_set_ne _ _ _ _ hq0
      have hrest : FS.lookup fs₁ q = FS.lookup fs' q := by
        apply ih fs' fs₁ r (idx + 1) q h
        intro j hj
        have hj' := hq (j + 1) (by simpa using Nat.succ_lt_succ hj)
        have harith : idx + (j + 1) + 1 = idx + 1 + j + 1 := by omega
        rw [harith] at hj'
        exact hj'
      rw [hrest, hstep]

theorem write_episodes_shallow {sf : Path} {force : Bool} {eps : List String}
    {fs fs₁ : FS} {r : Option FSError} {idx : Nat} {q : Path}
    (h : write_episodes sf force fs eps idx = (fs₁, r))
    (hlen : q.length ≠ sf.length + 1) :
    FS.lookup fs₁ q = FS.lookup fs q := by
  apply write_episodes_lookup_other sf force eps fs fs₁ r idx q h
  intro j hj hc
  apply hlen
  rw [hc]
  simp

theorem write_episodes_sub :
    ∀ (sf : Path) (eps : List String) (fs fs₁ : FS) (r : Option FSError)
      (idx : Nat),
      write_episodes sf false fs eps idx = (fs₁, r) → FS.Sub fs fs₁ := by
  intro sf eps
  induction eps with
  | nil =>
    intro fs fs₁ r idx h
    unfold write_episodes at h
    injection h with h1 h2
    subst h1
    exact sub_refl _
  | cons t rest ih =>
    intro fs fs₁ r idx h
    simp only [write_episodes, Bool.false_eq_true, reduceIte] at h
    split at h
    · next fs' e hw =>
      cases (write_x_ok hw).1
    · next fs' hw =>
      exact sub_trans (write_x_sub hw) (ih fs' fs₁ r (idx + 1) h)

theorem write_episodes_idem :
    ∀ (sf : Path) (eps : List String) (fs fs₁ : FS) (idx : Nat),
      write_episodes sf false fs eps idx = (fs₁, none) →
      ∀ g : FS, FS.Sub fs₁ g →
      write_episodes sf false g eps idx = (g, none) := by
  intro sf eps
  induction eps with
  | nil =>
    intro fs fs₁ idx h g hg
    rfl
  | cons t rest ih =>
    intro fs fs₁ idx h g hg
    simp only [write_episodes, Bool.false_eq_true, reduceIte] at h ⊢
    split at h
    · next fs' e hw =>
      cases (write_x_ok hw).1
    · next fs' hw =>
      have hex : FS.pathExists fs' (sf ++ ["Episode_" ++ pad2 (idx + 1)]) = true :=
        (write_x_ok hw).2
      have hsub' : FS.Sub fs' fs₁ := write_episodes_sub sf rest fs' fs₁ none (idx + 1) h
      have hexg : FS.pathExists g (sf ++ ["Episode_" ++ pad2 (idx + 1)]) = true :=
        pathExists_of_sub (sub_trans hsub' hg) hex
      rw [write_x_exists hexg]
      exact ih fs' fs₁ (idx + 1) h g hg

theorem write_episodes_fresh_lookup :
    ∀ (sf : Path) (force : Bool) (eps : List String) (fs fs₁ : FS) (idx n : Nat),
      write_episodes sf force fs eps idx = (fs₁, none) →
      n < eps.length →
      FS.lookup fs (sf ++ ["Episode_" ++ pad2 (idx + n + 1)]) = none →
      FS.lookup fs₁ (sf ++ ["Episode_" ++ pad2 (idx + n + 1)]) =
        some (FSEntry.file ("Episode: " ++ pad2 (idx + n))) := by
  intro sf force eps
  induction eps with
  | nil =>
    intro fs fs₁ idx n h hn hnone
    exact absurd hn (by simp)
  | cons t rest ih =>
    intro fs fs₁ idx n h hn hnone
    simp only [write_episodes] at h
    split at h
    · next fs' e hw =>
      injection h with h1 h2
      cases h2
    · next fs' hw =>
      cases n with
      | zero =>
        simp only [Nat.add_zero] at hnone ⊢
        have hexf : FS.pathExists fs (sf ++ ["Episode_" ++ pad2 (idx + 1)]) = false := by
          unfold FS.pathExists
          rw [hnone]
          rfl
        have hw' : fs' = FS.set fs (sf ++ ["Episode_" ++ pad2 (idx + 1)])
            (FSEntry.file ("Episode: " ++ pad2 idx)) := by
          cases force
          · simp only [Bool.false_eq_true, reduceIte] at hw
            rw [write_x_fresh hexf] at hw
            injection hw with hw1 hw2
            exact hw1.symm
          · simp only [reduceIte] at hw
            exact write_w_ok hw
        have hother : FS.lookup fs₁ (sf ++ ["Episode_" ++ pad2 (idx + 1)]) =
            FS.lookup fs' (sf ++ ["Episode_" ++ pad2 (idx + 1)]) := by
          apply write_episodes_lookup_other sf force rest fs' fs₁ none (idx + 1) _ h
          intro j hj
          exact epPath_ne (by omega)
        rw [hother, hw', lookup_set_self]
      | succ m =>
        have harith : idx + (m + 1) + 1 = (idx + 1) + m + 1 := by omega
        have harith2 : idx + (m + 1) = (idx + 1) + m := by omega
        rw [harith] at hnone ⊢
        rw [harith2]
        have hfs' : FS.lookup fs' (sf ++ ["Episode_" ++ pad2 ((idx + 1) + m + 1)]) = none := by
          rcases write_contents_state hw with rfl | rfl
          · exact hnone
          · rw [lookup_set_ne _ _ _ _ (epPath_ne (by omega))]
            exact hnone
        exact ih fs' fs₁ (idx + 1) m h (by simpa using Nat.succ_lt_succ_iff.mp hn) hfs'

theorem write_seasons_shallow :
    ∀ (sf : Path) (force : Bool) (l : List (String × List String))
      (fs fs₁ : FS) (r : Option FSError),
      write_seasons sf force fs l = (fs₁, r) →
      ∀ (q : Path) (e : FSEntry), q.length ≠ sf.length + 2 →
      FS.lookup fs q = some e → FS.lookup fs₁ q = some e := by
  intro sf force l
  induction l with
  | nil =>
    intro fs fs₁ r h q e hlen hq
    unfold write_seasons at h
    injection h with h1 h2
    subst h1
    exact hq
  | cons p rest ih =>
    obtain ⟨season, episodes⟩ := p
    intro fs fs₁ r h q e hlen hq
    simp only [write_seasons] at h
    split at h
    · next fs' e' hc =>
      injection h with h1 h2
      subst h1
      exact create_folder_sub hc q e hq
    · next fs' hc =>
      have hcf := create_folder_sub hc q e hq
      split at h
      · next fs'' e' hw =>
        injection h with h1 h2
        subst h1
        have h2 : FS.lookup fs'' q = FS.lookup fs' q :=
          write_episodes_shallow hw (by simpa using hlen)
        rw [h2]
        exact hcf
      · next fs'' hw =>
        have h2 : FS.lookup fs'' q = FS.lookup fs' q :=
          write_episodes_shallow hw (by simpa using hlen)
        exact ih fs'' fs₁ r h q e hlen (by rw [h2]; exact hcf)

theorem write_seasons_sub :
    ∀ (sf : Path) (l : List (String × List String)) (fs fs₁ : FS)
      (r : Option FSError),
      write_seasons sf false fs l = (fs₁, r) → FS.Sub fs fs₁ := by
  intro sf l
  induction l with
  | nil =>
    intro fs fs₁ r h
    unfold write_seasons at h
    injection h with h1 h2
    subst h1
    exact sub_refl _
  | cons p rest ih =>
    obtain ⟨season, episodes⟩ := p
    intro fs fs₁ r h
    simp only [write_seasons] at h
    split at h
    · next fs' e' hc =>
      injection h with h1 h2
      subst h1
      exact create_folder_sub hc
    · next fs' hc =>
      split at h
      · next fs'' e' hw =>
        injection h with h1 h2
        subst h1
        exact sub_trans (create_folder_sub hc)
          (write_episodes_sub _ episodes fs' fs'' (some e') 0 hw)
      · next fs'' hw =>
        exact sub_trans (create_folder_sub hc)
          (sub_trans (write_episodes_sub _ episodes fs' fs'' none 0 hw)
            (ih fs'' fs₁ r h))

theorem write_seasons_idem :
    ∀ (sf : Path) (l : List (String × List String)) (fs fs₁ : FS),
      write_seasons sf false fs l = (fs₁, none) →
      ∀ g : FS, FS.Sub fs₁ g →
      write_seasons sf false g l = (g, none) := by
  intro sf l
  induction l with
  | nil =>
    intro fs fs₁ h g hg
    rfl
  | cons p rest ih =>
    obtain ⟨season, episodes⟩ := p
    intro fs fs₁ h g hg
    simp only [write_seasons] at h
    split at h
    · next fs' e hc =>
      injection h with h1 h2
      cases h2
    · next fs' hc =>
      split at h
      · next fs'' e hw =>
        injection h with h1 h2
        cases h2
      · next fs'' hw =>
        have hex : FS.pathExists fs' (sf ++ [season]) = true :=
          create_folder_exists_after hc
        have hsub1 : FS.Sub fs' fs'' :=
          write_episodes_sub _ episodes fs' fs'' none 0 hw
        have hsub2 : FS.Sub fs'' fs₁ := write_seasons_sub sf rest fs'' fs₁ none h
        have hexg : FS.pathExists g (sf ++ [season]) = true :=
          pathExists_of_sub (sub_trans hsub1 (sub_trans hsub2 hg)) hex
        have hep : write_episodes (sf ++ [season]) false g episodes 0 = (g, none) :=
          write_episodes_idem _ episodes fs' fs'' 0 hw g (sub_trans hsub2 hg)
        simp only [write_seasons, create_folder_of_exists hexg, hep]
        exact ih fs'' fs₁ h g hg

theorem output_to_folders_ok_parts {fs : FS} {cwd : Path} {name : String}
    {series : List (String × List String)} {output : Option Path}
    {force : Bool} {fs₁ : FS}
    (h : output_to_folders fs cwd name series output force = (fs₁, none)) :
    ∃ fsa, create_folder fs (Option.getD output cwd ++ [name]) = (fsa, none) ∧
      write_seasons (Option.getD output cwd ++ [name]) force
        (FS.set fsa ((Option.getD output cwd ++ [name]) ++ [".wikiseries"])
          (FSEntry.file "true")) series = (fs₁, none) := by
  simp only [output_to_folders] at h
  split at h
  · next fsa e hc =>
    injection h with h1 h2
    cases h2
  · next fsa hc =>
    split at h
    · next fsb e hw =>
      injection h with h1 h2
      cases h2
    · next fsb hw =>
      have hb := write_w_ok hw
      refine ⟨fsa, hc, ?_⟩
      rw [← hb]
      exact h

/-! ### The claims -/

/-- Claim C1, counterexample: a run invoked with action `remove` is not a
    silent no-op.  With the empty filesystem, a resolvable name `A` and
    action `remove`, the run still materializes the series: the resulting
    state is nonempty and contains the episode file
    `A/S1/Episode_01` with content `Episode: 00`. -/
theorem c1_remove_run_creates_files_counterexample :
    (main (fun _ => some [("S1", ["Pilot"])]) [] []
        (Args.mk "A" none false "remove")).1 ≠ ([] : FS) ∧
      FS.lookup (main (fun _ => some [("S1", ["Pilot"])]) [] []
          (Args.mk "A" none false "remove")).1 ["A", "S1", "Episode_01"] =
        some (FSEntry.file "Episode: 00") := by
  decide

/-- Claim C1, amended: a run invoked with action `remove` performs no
    removal (the remove branch of `main` is a bare `pass`), but it does not
    stop either — execution falls through to the add path, so the run
    behaves exactly like the same run invoked with action `add`. -/
theorem c1_remove_action_behaves_as_add :
    ∀ (resolver : String → Option (List (String × List String)))
      (fs : FS) (cwd : Path) (name : String) (output : Option Path)
      (force : Bool),
      main resolver fs cwd (Args.mk name output force "remove") =
        main resolver fs cwd (Args.mk name output force "add") := by
  intro resolver fs cwd name output force
  rfl

/-- Claim C2: for a path holding a pre-existing file, writing with
    `force=false` (exclusive-create mode `"x"`) leaves the filesystem — in
    particular the file's original content — unchanged and reports no error
    (the `FileExistsError` is swallowed), while writing with `force=true`
    (overwrite mode `"w"`) succeeds and replaces the content exactly with
    the new value. -/
theorem c2_write_force_semantics :
    ∀ (fs : FS) (p : Path) (c₀ c : String),
      FS.lookup fs p = some (FSEntry.file c₀) →
      write_contents fs p c "x" false = (fs, none) ∧
        write_contents fs p c "w" true =
          (FS.set fs p (FSEntry.file c), none) ∧
        FS.lookup (FS.set fs p (FSEntry.file c)) p =
          some (FSEntry.file c) := by
  intro fs p c₀ c h
  exact ⟨write_x_exists (pathExists_of_lookup h), write_w_of_file h,
    lookup_set_self _ _ _⟩

/-- Claim C2, witness at a concrete pre-existing file. -/
theorem c2_write_force_semantics_witness :
    write_contents [(["f"], FSEntry.file "old")] ["f"] "new" "x" false =
        ([(["f"], FSEntry.file "old")], none) ∧
      write_contents [(["f"], FSEntry.file "old")] ["f"] "new" "w" true =
        (FS.set [(["f"], FSEntry.file "old")] ["f"] (FSEntry.file "new"), none) ∧
      FS.lookup (FS.set [(["f"], FSEntry.file "old")] ["f"]
          (FSEntry.file "new")) ["f"] = some (FSEntry.file "new") :=
  c2_write_force_semantics [(["f"], FSEntry.file "old")] ["f"] "old" "new"
    (by decide)

/-- Claim C3: `create_folder` is idempotent — if the path already exists
    (as a file or as a directory) the call returns the state unchanged with
    no error, and after any successful call a second call on the same path
    returns the reached state unchanged with no error. -/
theorem c3_create_folder_idempotent :
    ∀ (fs : FS) (p : Path) (fs' : FS),
      (FS.pathExists fs p = true → create_folder fs p = (fs, none)) ∧
      (create_folder fs p = (fs', none) → create_folder fs' p = (fs', none)) := by
  intro fs p fs'
  refine ⟨create_folder_of_exists, ?_⟩
  intro h
  exact create_folder_of_exists (create_folder_exists_after h)

/-- Claim C3, witness: a pre-existing path that is a file is a silent no-op,
    and creating a fresh folder then calling again is a no-op. -/
theorem c3_create_folder_idempotent_witness :
    create_folder [(["a"], FSEntry.file "x")] ["a"] =
        ([(["a"], FSEntry.file "x")], none) ∧
      create_folder [(["b"], FSEntry.dir)] ["b"] =
        ([(["b"], FSEntry.dir)], none) :=
  ⟨(c3_create_folder_idempotent [(["a"], FSEntry.file "x")] ["a"] []).1
      (by decide),
    (c3_create_folder_idempotent [] ["b"] [(["b"], FSEntry.dir)]).2
      (by decide)⟩

/-- Claim C4: re-running `output_to_folders` for the same name and structure
    with `force=false` after a prior successful run raises no error and
    changes nothing — the state after the second run equals the state after
    the first. -/
theorem c4_rerun_materialize_idempotent :
    ∀ (fs : FS) (cwd : Path) (name : String)
      (series : List (String × List String)) (output : Option Path)
      (fs₁ : FS),
      output_to_folders fs cwd name series output false = (fs₁, none) →
      output_to_folders fs₁ cwd name series output false = (fs₁, none) := by
  intro fs cwd name series output fs₁ h
  obtain ⟨fsa, hc, hs⟩ := output_to_folders_ok_parts h
  have hsubs : FS.Sub (FS.set fsa ((Option.getD output cwd ++ [name]) ++
      [".wikiseries"]) (FSEntry.file "true")) fs₁ :=
    write_seasons_sub _ series _ fs₁ none hs
  have hsf1 : FS.pathExists fsa (Option.getD output cwd ++ [name]) = true :=
    create_folder_exists_after hc
  have hsf2 : FS.pathExists fs₁ (Option.getD output cwd ++ [name]) = true :=
    pathExists_of_sub hsubs (pathExists_set hsf1)
  have hmark : FS.lookup fs₁ ((Option.getD output cwd ++ [name]) ++
      [".wikiseries"]) = some (FSEntry.file "true") :=
    hsubs _ _ (lookup_set_self _ _ _)
  simp only [output_to_folders, create_folder_of_exists hsf2]
  rw [write_w_of_file hmark, set_self_of_lookup _ _ _ hmark]
  exact write_seasons_idem _ series _ fs₁ hs fs₁ (sub_refl fs₁)

/-- Claim C4, witness: a successful concrete first run re-runs to the same
    state with no error. -/
theorem c4_rerun_materialize_idempotent_witness :
    output_to_folders
        [(["A"], FSEntry.dir), (["A", ".wikiseries"], FSEntry.file "true"),
         (["A", "S1"], FSEntry.dir),
         (["A", "S1", "Episode_01"], FSEntry.file "Episode: 00")]
        [] "A" [("S1", ["t"])] none false =
      ([(["A"], FSEntry.dir), (["A", ".wikiseries"], FSEntry.file "true"),
        (["A", "S1"], FSEntry.dir),
        (["A", "S1", "Episode_01"], FSEntry.file "Episode: 00")], none) :=
  c4_rerun_materialize_idempotent [] [] "A" [("S1", ["t"])] none
    [(["A"], FSEntry.dir), (["A", ".wikiseries"], FSEntry.file "true"),
     (["A", "S1"], FSEntry.dir),
     (["A", "S1", "Episode_01"], FSEntry.file "Episode: 00")]
    (by decide)

/-- Claim C5: in the episode loop the file written for the episode at
    0-based index `n` of a season is named `Episode_NN` with `NN = n + 1`
    zero-padded to two digits, and its content embeds `n` (0-based)
    zero-padded to two digits: if that path was initially absent, after a
    successful run it holds exactly `"Episode: " ++ pad2 n`.  In particular
    the first episode's filename is `Episode_01` while its content is
    `Episode: 00`. -/
theorem c5_episode_name_and_content :
    ∀ (season_folder : Path) (force : Bool) (eps : List String)
      (fs fs₁ : FS) (n : Nat),
      write_episodes season_folder force fs eps 0 = (fs₁, none) →
      n < eps.length →
      FS.lookup fs (season_folder ++ ["Episode_" ++ pad2 (n + 1)]) = none →
      FS.lookup fs₁ (season_folder ++ ["Episode_" ++ pad2 (n + 1)]) =
          some (FSEntry.file ("Episode: " ++ pad2 n)) ∧
        "Episode_" ++ pad2 (0 + 1) = "Episode_01" ∧
        "Episode: " ++ pad2 0 = "Episode: 00" := by
  intro sf force eps fs fs₁ n h hn hnone
  refine ⟨?_, by decide, by decide⟩
  have hz := write_episodes_fresh_lookup sf force eps fs fs₁ 0 n h hn
    (by simpa using hnone)
  simpa using hz

/-- Claim C5, witness: the second episode (index 1) of a two-episode season
    materialized from the empty filesystem. -/
theorem c5_episode_name_and_content_witness :
    FS.lookup [(["S", "Episode_01"], FSEntry.file "Episode: 00"),
               (["S", "Episode_02"], FSEntry.file "Episode: 01")]
        (["S"] ++ ["Episode_" ++ pad2 (1 + 1)]) =
        some (FSEntry.file ("Episode: " ++ pad2 1)) ∧
      "Episode_" ++ pad2 (0 + 1) = "Episode_01" ∧
      "Episode: " ++ pad2 0 = "Episode: 00" :=
  c5_episode_name_and_content ["S"] false ["a", "b"] []
    [(["S", "Episode_01"], FSEntry.file "Episode: 00"),
     (["S", "Episode_02"], FSEntry.file "Episode: 01")] 1
    (by decide) (by decide) (by decide)

/-- Claim C6: materializing the structure `[("S1", 3 episodes),
    ("S2", 1 episode)]` from an empty filesystem produces exactly two season
    folders and exactly four episode files — `Episode_01`, `Episode_02`,
    `Episode_03` under `S1` and `Episode_01` under `S2` — plus the series
    folder and the marker file, and nothing else. -/
theorem c6_concrete_structure_materialization :
    output_to_folders [] [] "Show"
        [("S1", ["E1", "E2", "E3"]), ("S2", ["E4"])] none false =
      ([(["Show"], FSEntry.dir),
        (["Show", ".wikiseries"], FSEntry.file "true"),
        (["Show", "S1"], FSEntry.dir),
        (["Show", "S1", "Episode_01"], FSEntry.file "Episode: 00"),
        (["Show", "S1", "Episode_02"], FSEntry.file "Episode: 01"),
        (["Show", "S1", "Episode_03"], FSEntry.file "Episode: 02"),
        (["Show", "S2"], FSEntry.dir),
        (["Show", "S2", "Episode_01"], FSEntry.file "Episode: 00")], none) := by
  decide

/-- Claim C7: when the name passes validation but the external resolver
    cannot resolve it (it raises its index-failure signal, modelled as
    `none`), the run reports `SeriesNotFoundError` and performs zero
    filesystem writes — the returned state is the input state. -/
theorem c7_resolver_failure_no_writes :
    ∀ (resolver : String → Option (List (String × List String)))
      (fs : FS) (cwd : Path) (args : Args),
      is_valid_name args.name = true →
      resolver args.name = none →
      main resolver fs cwd args = (fs, some CliError.seriesNotFound) := by
  intro resolver fs cwd args hv hr
  simp only [main, ite_self, hv, hr, Bool.true_eq_false, reduceIte]

/-- Claim C7, witness at a concrete unresolvable name. -/
theorem c7_resolver_failure_no_writes_witness :
    main (fun _ => none) [] [] (Args.mk "X" none false "add") =
      ([], some CliError.seriesNotFound) :=
  c7_resolver_failure_no_writes (fun _ => none) [] []
    (Args.mk "X" none false "add") (by decide) rfl

/-- Claim C8: on every successful materialization run, whatever the value of
    the `force` flag and whatever was previously stored there, the marker
    file `.wikiseries` of the series folder ends up with content `"true"` —
    the marker write always uses overwrite mode `"w"`, unlike the
    per-episode writes whose mode depends on `force`. -/
theorem c8_marker_always_overwritten :
    ∀ (fs : FS) (cwd : Path) (name : String)
      (series : List (String × List String)) (output : Option Path)
      (force : Bool) (fs₁ : FS),
      output_to_folders fs cwd name series output force = (fs₁, none) →
      FS.lookup fs₁ ((Option.getD output cwd ++ [name]) ++ [".wikiseries"]) =
        some (FSEntry.file "true") := by
  intro fs cwd name series output force fs₁ h
  obtain ⟨fsa, hc, hs⟩ := output_to_folders_ok_parts h
  refine write_seasons_shallow _ force series _ fs₁ none hs _ _ ?_
    (lookup_set_self _ _ _)
  simp

/-- Claim C8, witness: a `force=true` run over a marker holding different
    content ends with the marker overwritten to `"true"`. -/
theorem c8_marker_always_overwritten_witness :
    FS.lookup [(["A"], FSEntry.dir), (["A", ".wikiseries"], FSEntry.file "true"),
               (["A", "S1"], FSEntry.dir),
               (["A", "S1", "Episode_01"], FSEntry.file "Episode: 00")]
        ((Option.getD none ([] : Path) ++ ["A"]) ++ [".wikiseries"]) =
      some (FSEntry.file "true") :=
  c8_marker_always_overwritten
    [(["A"], FSEntry.dir), (["A", ".wikiseries"], FSEntry.file "no")]
    [] "A" [("S1", ["t"])] none true
    [(["A"], FSEntry.dir), (["A", ".wikiseries"], FSEntry.file "true"),
     (["A", "S1"], FSEntry.dir),
     (["A", "S1", "Episode_01"], FSEntry.file "Episode: 00")]
    (by decide)

/-- Claim C9: `is_valid_name` returns true exactly for nonempty strings —
    the empty string is the only rejected input, and whitespace-only names
    are accepted. -/
theorem c9_is_valid_name_iff_nonempty :
    (∀ name : String, is_valid_name name = true ↔ name ≠ "") ∧
      is_valid_name "   " = true := by
  have hlen : ∀ s : String, s.length = 0 → s = "" := by
    intro s hs
    obtain ⟨l⟩ := s
    have hl : l = [] := List.length_eq_zero.mp hs
    rw [hl]
  refine ⟨?_, by decide⟩
  intro name
  by_cases h : name.length = 0
  · rw [is_valid_name, if_pos h]
    simp [hlen name h]
  · rw [is_valid_name, if_neg h]
    have hne : name ≠ "" := fun hc => h (by rw [hc]; rfl)
    simp [hne]

/-- Claim C9, witness: a whitespace-only name is accepted. -/
theorem c9_is_valid_name_iff_nonempty_witness : is_valid_name "   " = true :=
  c9_is_valid_name_iff_nonempty.2

/-- Claim C10: the `force` argument of `write_contents` has no effect on the
    outcome — for every filesystem, path, content and filemode, the call
    with `force=true` returns exactly the same state and error as the call
    with `force=false` (in the source, `force` only appears in a debug log
    message). -/
theorem c10_force_no_effect_on_write :
    ∀ (fs : FS) (path : Path) (content : String) (filemode : String),
      write_contents fs path content filemode true =
        write_contents fs path content filemode false := by
  intro fs path content filemode
  rfl

end Wikiseries
